import Mathlib

/-!
Shallow embedding of the last-mile delivery dashboard pipeline (`src/app.py`).

The pipeline in `app.py` is straight-line pandas code:
* value normalization (lines 26-31): every cell is stripped and the tokens
  `""`, `"nan"`, `"None"` are replaced by missing,
* column resolution (lines 35-75): canonical field names are resolved against
  a synonym table, with a hard stop when `Delivery_Time` is unresolved,
* numeric coercion and `dropna(subset=["Delivery_Time"])` (lines 87-94),
* derivation (lines 116-127): `Age_Group` via `pd.cut`, the outlier threshold
  `mean + std` and the `Late` flag over the whole cleaned table,
* sidebar filtering (lines 133-155): five `isin` filters, each skipped when its
  selection list is empty,
* KPIs (lines 170-173) and per-field group-by-mean summaries (lines 194-214).

Numeric cells are modelled as `Option ℚ` (pandas floats with `NaN` as `none`);
string cells as `Option String`. The sample standard deviation involves a
square root, so the comparison `Delivery_Time > mean + std` is embedded in the
square-root-free form over ℚ and proved equivalent to the real-number formula
with `Real.sqrt` (`lateFlag_iff_real`).
-/

namespace LastMile

/-- Python `c.isspace()` for the ASCII whitespace characters that
`str.strip()` removes (the unicode extras are irrelevant to the dataset). -/
def isSpaceChar (c : Char) : Bool :=
  c = ' ' || c = '\t' || c = '\n' || c = '\r' || c = '\x0b' || c = '\x0c'

/-- Drop `p`-satisfying characters from both ends of a character list. -/
def stripChars (p : Char → Bool) (cs : List Char) : List Char :=
  ((cs.dropWhile p).reverse.dropWhile p).reverse

/-- Python `str.strip()` (line 29: `.str.strip()`). -/
def pyStrip (s : String) : String := ⟨stripChars isSpaceChar s.data⟩

/-- Lines 26-31: each cell is `astype(str).str.strip()` and then the exact
tokens `""`, `"nan"`, `"None"` are replaced with `NaN`.  A missing cell goes
through `astype(str)` as the string `"nan"` and hence stays missing. -/
def cleanCell (x : Option String) : Option String :=
  match x with
  | none => none
  | some s =>
    let t := pyStrip s
    if t = "" || t = "nan" || t = "None" then none else some t

/-- Lines 36-44: the synonym list for the required `Delivery_Time` field. -/
def deliveryTimeVariants : List String :=
  ["Delivery_Time", "Delivery Time", "delivery_time", "delivery time",
   "TimeTaken", "Time Taken"]

/-- Python `str.lower()` on an ASCII character: shift upper-case letters by
32 code points. -/
def lowerChar (c : Char) : Char :=
  if 'A' ≤ c ∧ c ≤ 'Z' then Char.ofNat (c.toNat + 32) else c

/-- Python `str.lower()` (the headers are ASCII; only ASCII case matters). -/
def pyLower (s : String) : String := ⟨s.data.map lowerChar⟩

/-- Lines 49-65: resolve one canonical field against the file headers.  For
each variant in priority order, first an exact-membership test, then a
case-insensitive scan over the headers; the first hit wins.  (In the source
the case-insensitive scan iterates a Python `set`, whose order is
unspecified; the model scans the headers in file order.  Which header wins
may depend on that order, but whether any header wins does not.) -/
def resolveField (variantList : List String) (headers : List String) : Option String :=
  match variantList with
  | [] => none
  | v :: rest =>
    if headers.contains v then some v
    else
      match headers.find? (fun ac => pyLower ac = pyLower v) with
      | some ac => some ac
      | none => resolveField rest headers

/-- One row of the standardized working table (`work`, lines 78-89), after
column resolution and `pd.to_numeric(errors="coerce")`: numeric cells are
`Option ℚ` (`none` = `NaN`), categorical cells are raw `Option String`
still awaiting the value normalization of lines 26-31. -/
structure WorkRow where
  deliveryTime : Option ℚ
  agentRating : Option ℚ
  agentAge : Option ℚ
  weather : Option String
  traffic : Option String
  vehicle : Option String
  area : Option String
  category : Option String
deriving DecidableEq, Repr

/-- A clean row: `Delivery_Time` is present (rows where it is missing were
dropped at line 93). -/
structure CleanRow where
  deliveryTime : ℚ
  agentRating : Option ℚ
  agentAge : Option ℚ
  weather : Option String
  traffic : Option String
  vehicle : Option String
  area : Option String
  category : Option String
deriving DecidableEq, Repr

/-- Apply the cell normalization of lines 26-31 to the five categorical
fields of a row.  (The numeric columns go through the same string cleaning
before `pd.to_numeric`; on the `Option ℚ` model that step is the identity.) -/
def normalizeRow (r : WorkRow) : WorkRow :=
  { r with
    weather := cleanCell r.weather
    traffic := cleanCell r.traffic
    vehicle := cleanCell r.vehicle
    area := cleanCell r.area
    category := cleanCell r.category }

/-- Line 93: a normalized row survives `dropna(subset=["Delivery_Time"])`
exactly when its delivery time is present. -/
def toCleanRow (r : WorkRow) : Option CleanRow :=
  match r.deliveryTime with
  | none => none
  | some dt =>
    some { deliveryTime := dt, agentRating := r.agentRating,
           agentAge := r.agentAge, weather := r.weather, traffic := r.traffic,
           vehicle := r.vehicle, area := r.area, category := r.category }

/-- Ingestion and normalization (lines 26-31 and 91-93): normalize every
cell, then drop the rows whose `Delivery_Time` is missing.  There is no
other row-dropping step — in particular `app.py` never calls
`drop_duplicates`. -/
def ingest (rows : List WorkRow) : List CleanRow :=
  rows.filterMap (fun r => toCleanRow (normalizeRow r))

/-- Mean of a list of rationals (`Series.mean`, line 124). -/
def listMean (xs : List ℚ) : ℚ := xs.sum / xs.length

/-- Sample (Bessel-corrected) variance, the square of pandas `Series.std`
with its default `ddof=1` (line 125).  Only meaningful for `2 ≤ xs.length`;
pandas returns `NaN` otherwise. -/
def sampleVar (xs : List ℚ) : ℚ :=
  ((xs.map (fun x => (x - listMean xs) ^ 2)).sum) / ((xs.length : ℚ) - 1)

/-- Line 127: `Delivery_Time > mean + std` where `std = sqrt(sampleVar)`.
For `xs.length ≤ 1` the std is `NaN` and the pandas comparison is `False`.
The square root is eliminated: `d > m + sqrt v ↔ m < d ∧ v < (d - m)²`
(proved as `lateFlag_iff_real` below), keeping the flag decidable over ℚ. -/
def lateFlag (xs : List ℚ) (d : ℚ) : Bool :=
  if xs.length ≤ 1 then false
  else decide (listMean xs < d ∧ sampleVar xs < (d - listMean xs) ^ 2)

/-- Line 123: `pd.cut(work["Agent_Age"].fillna(-1), bins=[-1,24,40,200],
labels=["<25","25-40","40+"], include_lowest=True).astype(str)
.replace("nan","Unknown")`.  A missing age is first filled with `-1`, which
lies in the lowest (closed, by `include_lowest`) bin `[-1, 24]`; only values
outside `[-1, 200]` fall out of every bin and become `"Unknown"`. -/
def ageGroup (age : Option ℚ) : String :=
  let a := age.getD (-1)
  if -1 ≤ a ∧ a ≤ 24 then "<25"
  else if 24 < a ∧ a ≤ 40 then "25-40"
  else if 40 < a ∧ a ≤ 200 then "40+"
  else "Unknown"

/-- A derived row (lines 122-127): a clean row plus `Age_Group` and `Late`. -/
structure DerivedRow where
  deliveryTime : ℚ
  agentRating : Option ℚ
  agentAge : Option ℚ
  weather : Option String
  traffic : Option String
  vehicle : Option String
  area : Option String
  category : Option String
  ageGroup : String
  late : Bool
deriving DecidableEq, Repr

/-- The derivation errors the source surfaces with `st.error`/`st.stop`. -/
inductive DataError where
  /-- Line 73-75: no usable delivery-time column. -/
  | noUsableDeliveryTimeColumn : DataError
  /-- Line 116-120: zero rows after cleaning. -/
  | emptyAfterCleaning : DataError
deriving DecidableEq, Repr

/-- Lines 122-127 applied to one clean row, given the delivery times `dts`
of the whole cleaned table (threshold inputs are whole-dataset). -/
def deriveRow (dts : List ℚ) (r : CleanRow) : DerivedRow :=
  { deliveryTime := r.deliveryTime, agentRating := r.agentRating,
    agentAge := r.agentAge, weather := r.weather, traffic := r.traffic,
    vehicle := r.vehicle, area := r.area, category := r.category,
    ageGroup := ageGroup r.agentAge, late := lateFlag dts r.deliveryTime }

/-- Derivation (lines 116-127): stop when the cleaned table is empty
(line 116), otherwise add `Age_Group` and the whole-dataset `Late` flag. -/
def derive (rows : List CleanRow) : Except DataError (List DerivedRow) :=
  if rows.isEmpty then .error .emptyAfterCleaning
  else .ok (rows.map (deriveRow (rows.map (·.deliveryTime))))

/-- Lines 15-120 end-to-end, restricted to the error behaviour the claims
need: with `Delivery_Time` unresolved the script stops at line 75 before any
derivation; otherwise the (already column-resolved) rows are ingested and
derived. -/
def load (headers : List String) (rows : List WorkRow) :
    Except DataError (List DerivedRow) :=
  match resolveField deliveryTimeVariants headers with
  | none => .error .noUsableDeliveryTimeColumn
  | some _ => derive (ingest rows)

/-- The five multiselect states (lines 139-143), one list of allowed values
per categorical field. -/
structure FilterSelection where
  weather : List String
  traffic : List String
  vehicle : List String
  area : List String
  category : List String
deriving DecidableEq, Repr

/-- One `if sel: filtered = filtered[filtered[col].isin(sel)]` step
(lines 146-155): an empty selection list is falsy, so the field's filter is
skipped entirely; a nonempty selection keeps a row iff its value is a member
(`isin` is `False` on a missing cell). -/
def fieldPass (sel : List String) (v : Option String) : Bool :=
  if sel.isEmpty then true
  else
    match v with
    | some s => sel.contains s
    | none => false

/-- Lines 145-155: the five `isin` filters applied in sequence. -/
def applyFilter (rows : List DerivedRow) (sel : FilterSelection) : List DerivedRow :=
  (((((rows.filter (fun r => fieldPass sel.weather r.weather)).filter
      (fun r => fieldPass sel.traffic r.traffic)).filter
      (fun r => fieldPass sel.vehicle r.vehicle)).filter
      (fun r => fieldPass sel.area r.area)).filter
      (fun r => fieldPass sel.category r.category))

/-- Lexicographic code-point comparison of character lists, the order Python
`sorted` uses on strings. -/
def lexLe : List Char → List Char → Bool
  | [], _ => true
  | _ :: _, [] => false
  | a :: as, b :: bs =>
    if a.toNat < b.toNat then true
    else if b.toNat < a.toNat then false
    else lexLe as bs

/-- Python `s <= t` on strings. -/
def pyStrLe (s t : String) : Bool := lexLe s.data t.data

instance : DecidableRel (fun a b : String => pyStrLe a b = true) :=
  fun a b => inferInstanceAs (Decidable (pyStrLe a b = true))

/-- Line 134: `sorted(work[col].dropna().unique().tolist())` — the distinct
non-missing values of a field, sorted lexicographically (`unique` keeps
first-occurrence order, `sorted` is a stable sort of them; on a total
antisymmetric order the result does not depend on the sorting algorithm). -/
def distinctValues (rows : List DerivedRow) (f : DerivedRow → Option String) :
    List String :=
  ((rows.filterMap f).dedup).insertionSort (fun a b => pyStrLe a b = true)

/-- Python `round(x, 2)` modelled over exact rationals (Python rounds
half-to-even on binary floats; on the exact values the claims touch the two
agree, and only the empty-input branch matters to the claims). -/
def round2 (x : ℚ) : ℚ := (round (x * 100) : ℤ) / 100

/-- The three KPI values of lines 170-173.  `avgDeliveryTime` is `none` when
the filtered set is empty — the source renders the em-dash sentinel `"—"`
instead of a number in that case. -/
structure KPI where
  avgDeliveryTime : Option ℚ
  totalCount : ℕ
  latePercentage : ℚ
deriving DecidableEq, Repr

/-- Lines 170-173: `round(filtered["Delivery_Time"].mean(), 2)` guarded by
`if not filtered.empty else "—"`; `len(filtered)`;
`round(filtered['Late'].mean()*100, 2) if len(filtered)>0 else 0`. -/
def kpis (rows : List DerivedRow) : KPI :=
  { avgDeliveryTime :=
      if rows.isEmpty then none
      else some (round2 (listMean (rows.map (·.deliveryTime)))),
    totalCount := rows.length,
    latePercentage :=
      if rows.length > 0 then
        round2 (listMean (rows.map (fun r => if r.late then 1 else 0)) * 100)
      else 0 }

/-- Group keys of `filtered.groupby(f)`: the distinct non-missing values,
in the ascending key order pandas `groupby` produces (missing keys are
dropped by `groupby`'s default `dropna=True`). -/
def groupKeys (rows : List DerivedRow) (f : DerivedRow → Option String) :
    List String :=
  ((rows.filterMap f).dedup).insertionSort (fun a b => pyStrLe a b = true)

/-- Mean delivery time of the group of key `k` under field `f`. -/
def groupMean (rows : List DerivedRow) (f : DerivedRow → Option String)
    (k : String) : ℚ :=
  listMean ((rows.filter (fun r => f r = some k)).map (·.deliveryTime))

/-- Ascending order on summary rows by mean delivery time. -/
def byMeanAsc (p q : String × ℚ) : Prop := p.2 ≤ q.2

/-- Descending order on summary rows by mean delivery time. -/
def byMeanDesc (p q : String × ℚ) : Prop := q.2 ≤ p.2

instance : DecidableRel byMeanAsc :=
  fun p q => inferInstanceAs (Decidable (p.2 ≤ q.2))

instance : DecidableRel byMeanDesc :=
  fun p q => inferInstanceAs (Decidable (q.2 ≤ p.2))

instance : IsTotal (String × ℚ) byMeanAsc := ⟨fun p q => le_total p.2 q.2⟩

instance : IsTotal (String × ℚ) byMeanDesc := ⟨fun p q => le_total q.2 p.2⟩

instance : IsTrans (String × ℚ) byMeanAsc := ⟨fun _ _ _ h h' => le_trans h h'⟩

instance : IsTrans (String × ℚ) byMeanDesc := ⟨fun _ _ _ h h' => le_trans h' h⟩

/-- `filtered.groupby(f, as_index=False)["Delivery_Time"].mean()
.sort_values("Delivery_Time", ascending=asc)` (lines 194, 199, 204, 213):
one `(key, mean)` row per distinct non-missing key, sorted by the mean.  No
count column is produced.  pandas' default `sort_values` kind is not stable;
the model uses a stable sort from the groupby key order, which agrees with
the source whenever the means are distinct. -/
def summarize (rows : List DerivedRow) (f : DerivedRow → Option String)
    (asc : Bool) : List (String × ℚ) :=
  if asc then
    ((groupKeys rows f).map (fun k => (k, groupMean rows f k))).insertionSort byMeanAsc
  else
    ((groupKeys rows f).map (fun k => (k, groupMean rows f k))).insertionSort byMeanDesc

/-- Line 194: weather summary, sorted by mean descending. -/
def weatherSummary (rows : List DerivedRow) : List (String × ℚ) :=
  summarize rows (·.weather) false

/-- Line 199: traffic summary, sorted by mean descending. -/
def trafficSummary (rows : List DerivedRow) : List (String × ℚ) :=
  summarize rows (·.traffic) false

/-- Line 204: vehicle summary — `sort_values("Delivery_Time")` with the
default `ascending=True`, unlike the other three summaries. -/
def vehicleSummary (rows : List DerivedRow) : List (String × ℚ) :=
  summarize rows (·.vehicle) true

/-- Line 213: area summary, sorted by mean descending. -/
def areaSummary (rows : List DerivedRow) : List (String × ℚ) :=
  summarize rows (·.area) false

/-- Spec-side membership predicate (§4.2 Contract — Filter): a record passes
a field exactly when its value is present and a member of the allowed-value
set.  Compared against the source's `fieldPass`, which additionally lets
every record through when the selection is empty. -/
def specMember (selList : List String) (x : Option String) : Bool :=
  match x with
  | some s => selList.contains s
  | none => false

/-- Lines 137-143: the default multiselect state — every field's selection
is the full list of its distinct non-missing values. -/
def fullSelection (rows : List DerivedRow) : FilterSelection :=
  ⟨distinctValues rows (·.weather), distinctValues rows (·.traffic),
   distinctValues rows (·.vehicle), distinctValues rows (·.area),
   distinctValues rows (·.category)⟩

/-! Concrete rows and selections used by witnesses and counterexamples. -/

/-- A clean row of the spec's threshold-stability dataset, tagged with a
weather value so a filter can pick a proper subset. -/
def c1row (w : String) (dt : ℚ) : CleanRow :=
  ⟨dt, none, none, some w, none, none, none, none⟩

/-- The spec's `DeliveryTime` dataset `[10,10,10,10,100]`. -/
def c1rows : List CleanRow :=
  [c1row "A" 10, c1row "A" 10, c1row "A" 10, c1row "A" 10, c1row "B" 100]

/-- Its delivery-time column. -/
def c1dts : List ℚ := c1rows.map (·.deliveryTime)

/-- Its derived rows. -/
def c1out : List DerivedRow := c1rows.map (deriveRow c1dts)

/-- A filter keeping only weather `"B"`. -/
def c1sel : FilterSelection := ⟨["B"], [], [], [], []⟩

/-- The derived row of the `100` record. -/
def c1r : DerivedRow := deriveRow c1dts (c1row "B" 100)

/-- A clean row whose `Agent_Age` is missing. -/
def c2row : CleanRow := ⟨7, none, none, none, none, none, none, none⟩

/-- A derived row with every categorical present. -/
def c3row : DerivedRow :=
  ⟨5, none, none, some "Sunny", some "Low", some "Bike", some "Urban",
   some "Food", "<25", false⟩

/-- A selection whose weather allowed-set is empty and whose other four
fields allow `c3row`'s values. -/
def c3sel : FilterSelection := ⟨[], ["Low"], ["Bike"], ["Urban"], ["Food"]⟩

/-- A derived row with weather present. -/
def c4rowS : DerivedRow :=
  ⟨1, none, none, some "Sunny", some "L", some "B", some "U", some "F",
   "<25", false⟩

/-- A derived row whose weather is missing. -/
def c4rowN : DerivedRow :=
  ⟨2, none, none, none, some "L", some "B", some "U", some "F", "<25", false⟩

/-- A two-row table containing a missing weather cell. -/
def c4rows : List DerivedRow := [c4rowS, c4rowN]

/-- Its default (full) selection. -/
def c4sel : FilterSelection := fullSelection c4rows

/-- A rainy counterpart to `c4rowS`. -/
def c4rowR : DerivedRow :=
  ⟨2, none, none, some "Rainy", some "L", some "B", some "U", some "F",
   "<25", false⟩

/-- A raw row whose weather cell is the empty string. -/
def c6rowEmpty : WorkRow := ⟨some 5, none, none, some "", none, none, none, none⟩

/-- A raw row whose weather cell is lower-case with surrounding blanks. -/
def c6rowLower : WorkRow :=
  ⟨some 5, none, none, some " sunny ", none, none, none, none⟩

/-- The clean row `c6rowLower` normalizes to. -/
def c6cleanLower : CleanRow := ⟨5, none, none, some "sunny", none, none, none, none⟩

/-- A raw row with delivery time present. -/
def c7row : WorkRow := ⟨some 3, none, none, some "Sunny", none, none, none, none⟩

/-- Its clean form. -/
def c7clean : CleanRow := ⟨3, none, none, some "Sunny", none, none, none, none⟩

/-- A raw row with delivery time missing. -/
def c7rowNoDt : WorkRow := ⟨none, none, none, some "X", none, none, none, none⟩

/-- Two derived rows whose weather and vehicle values coincide. -/
def c9a : DerivedRow :=
  ⟨1, none, none, some "A", none, some "A", none, none, "<25", false⟩

/-- Companion row to `c9a` with the larger delivery time. -/
def c9b : DerivedRow :=
  ⟨2, none, none, some "B", none, some "B", none, none, "<25", false⟩

/-- A summary row of `[c9a, c9b]` grouped by weather. -/
def c9p : String × ℚ := ("A", groupMean [c9a, c9b] (·.weather) "A")

/-- A clean row used to exercise single-row derivation. -/
def c10row : CleanRow := ⟨42, none, none, none, none, none, none, none⟩

/-! Supporting lemmas. -/

theorem fieldPass_eq (s : List String) (x : Option String) :
    fieldPass s x = (s.isEmpty || specMember s x) := by
  cases s <;> cases x <;> rfl

theorem applyFilter_eq_filter (rows : List DerivedRow) (sel : FilterSelection) :
    applyFilter rows sel = rows.filter (fun r =>
      fieldPass sel.weather r.weather && fieldPass sel.traffic r.traffic &&
      fieldPass sel.vehicle r.vehicle && fieldPass sel.area r.area &&
      fieldPass sel.category r.category) := by
  unfold applyFilter
  simp only [List.filter_filter]
  apply List.filter_congr
  intro r _
  cases fieldPass sel.weather r.weather <;>
    cases fieldPass sel.traffic r.traffic <;>
    cases fieldPass sel.vehicle r.vehicle <;>
    cases fieldPass sel.area r.area <;>
    cases fieldPass sel.category r.category <;> rfl

/-! The claims. -/

/-- C8: `kpis` on an empty filtered set returns `totalCount = 0`,
`latePercentage = 0`, and the undefined sentinel (`none`, rendered as the
em-dash, not the number zero) for `avgDeliveryTime`; `kpis` is a total
function, so no error is raised. -/
theorem kpis_empty_safe :
    kpis [] = { avgDeliveryTime := none, totalCount := 0, latePercentage := 0 } ∧
    (kpis []).avgDeliveryTime = none :=
  ⟨rfl, rfl⟩

/-- C3 counterexample: with the weather allowed-set empty (and the other
four selections matching the row), `applyFilter` returns the whole input,
not the empty set, refuting the claim that an empty allowed-set yields an
empty result. -/
theorem emptySelection_not_strict :
    applyFilter [c3row] c3sel = [c3row] ∧ applyFilter [c3row] c3sel ≠ [] :=
  ⟨by decide, by decide⟩

/-- C3 (amended): an empty allowed-set for a field imposes no constraint at
all — each of the five `isin` filters is skipped when its selection is empty
(`if sel:` is falsy), uniformly across the five fields; in particular the
all-empty selection returns the input unchanged. -/
theorem emptySelection_permissive :
    (∀ (rows : List DerivedRow) (sel : FilterSelection),
      applyFilter rows sel = rows.filter (fun r =>
        (sel.weather.isEmpty || specMember sel.weather r.weather) &&
        (sel.traffic.isEmpty || specMember sel.traffic r.traffic) &&
        (sel.vehicle.isEmpty || specMember sel.vehicle r.vehicle) &&
        (sel.area.isEmpty || specMember sel.area r.area) &&
        (sel.category.isEmpty || specMember sel.category r.category))) ∧
    (∀ rows : List DerivedRow, applyFilter rows ⟨[], [], [], [], []⟩ = rows) := by
  constructor
  · intro rows sel
    rw [applyFilter_eq_filter]
    apply List.filter_congr
    intro r _
    simp only [fieldPass_eq]
  · intro rows
    rw [applyFilter_eq_filter]
    apply List.filter_eq_self.mpr
    intro r _
    rfl

theorem mem_distinctValues (rows : List DerivedRow) (f : DerivedRow → Option String)
    (r : DerivedRow) (v : String) (hr : r ∈ rows) (hv : f r = some v) :
    v ∈ distinctValues rows f := by
  unfold distinctValues
  rw [List.mem_insertionSort, List.mem_dedup]
  exact List.mem_filterMap.mpr ⟨r, hr, hv⟩

/-- C4 counterexample: for a table holding a row with a missing weather cell,
the default selection (every field's allowed-set = its full distinct-value
list) is `⟨["Sunny"], ["L"], ["B"], ["U"], ["F"]⟩`, and `applyFilter` drops
the missing-weather row instead of returning the full input, refuting the
claim that the full selection returns the input unchanged (and that the
filter is a pure five-fold set-membership conjunction over all selections). -/
theorem fullSelection_not_identity :
    c4sel = ⟨["Sunny"], ["L"], ["B"], ["U"], ["F"]⟩ ∧
    applyFilter c4rows c4sel = [c4rowS] ∧
    applyFilter c4rows c4sel ≠ c4rows :=
  ⟨by decide, by decide, by decide⟩

/-- C4 (amended): whenever every field's allowed-set is nonempty,
`applyFilter` is exactly the five-fold logical AND of set-memberships, where
a missing value matches nothing; the default full selection returns the
input unchanged provided every record has all five categorical values
present; and with weather selection `["Sunny"]` (the other fields
unconstrained) the result is exactly the rows with weather `"Sunny"`. -/
theorem applyFilter_membership :
    (∀ (rows : List DerivedRow) (sel : FilterSelection),
      sel.weather ≠ [] → sel.traffic ≠ [] → sel.vehicle ≠ [] →
      sel.area ≠ [] → sel.category ≠ [] →
      applyFilter rows sel = rows.filter (fun r =>
        specMember sel.weather r.weather && specMember sel.traffic r.traffic &&
        specMember sel.vehicle r.vehicle && specMember sel.area r.area &&
        specMember sel.category r.category)) ∧
    (∀ rows : List DerivedRow,
      (∀ r ∈ rows, r.weather.isSome ∧ r.traffic.isSome ∧ r.vehicle.isSome ∧
        r.area.isSome ∧ r.category.isSome) →
      applyFilter rows (fullSelection rows) = rows) ∧
    (∀ rows : List DerivedRow,
      (∀ r ∈ rows, r.weather = some "Sunny" ∨ r.weather = some "Rainy") →
      applyFilter rows ⟨["Sunny"], [], [], [], []⟩ =
        rows.filter (fun r => r.weather == some "Sunny")) := by
  refine ⟨?_, ?_, ?_⟩
  · intro rows sel hw ht hv ha hc
    rw [applyFilter_eq_filter]
    apply List.filter_congr
    intro r _
    simp only [fieldPass_eq, List.isEmpty_eq_false.mpr hw,
      List.isEmpty_eq_false.mpr ht, List.isEmpty_eq_false.mpr hv,
      List.isEmpty_eq_false.mpr ha, List.isEmpty_eq_false.mpr hc,
      Bool.false_or]
  · intro rows hall
    rw [applyFilter_eq_filter]
    apply List.filter_eq_self.mpr
    intro r hr
    obtain ⟨hw, ht, hv, ha, hc⟩ := hall r hr
    obtain ⟨w, hw⟩ := Option.isSome_iff_exists.mp hw
    obtain ⟨t, ht⟩ := Option.isSome_iff_exists.mp ht
    obtain ⟨v, hv⟩ := Option.isSome_iff_exists.mp hv
    obtain ⟨a, ha⟩ := Option.isSome_iff_exists.mp ha
    obtain ⟨c, hc⟩ := Option.isSome_iff_exists.mp hc
    simp only [fieldPass_eq, fullSelection, hw, ht, hv, ha, hc, specMember,
      Bool.and_eq_true, Bool.or_eq_true]
    refine ⟨⟨⟨⟨Or.inr ?_, Or.inr ?_⟩, Or.inr ?_⟩, Or.inr ?_⟩, Or.inr ?_⟩
    · exact List.elem_eq_true_of_mem (mem_distinctValues rows _ r w hr hw)
    · exact List.elem_eq_true_of_mem (mem_distinctValues rows _ r t hr ht)
    · exact List.elem_eq_true_of_mem (mem_distinctValues rows _ r v hr hv)
    · exact List.elem_eq_true_of_mem (mem_distinctValues rows _ r a hr ha)
    · exact List.elem_eq_true_of_mem (mem_distinctValues rows _ r c hr hc)
  · intro rows hall
    rw [applyFilter_eq_filter]
    apply List.filter_congr
    intro r hr
    rcases hall r hr with h | h <;> rw [h] <;> rfl

/-- C4 witness: the Sunny/Rainy instance of `applyFilter_membership` at a
concrete two-row table. -/
theorem applyFilter_membership_witness :
    applyFilter [c4rowS, c4rowR] ⟨["Sunny"], [], [], [], []⟩ =
      List.filter (fun r => r.weather == some "Sunny") [c4rowS, c4rowR] :=
  applyFilter_membership.2.2 [c4rowS, c4rowR] (by decide)

theorem resolveField_none_iff (variantList headers : List String) :
    resolveField variantList headers = none ↔
      ∀ hh ∈ headers, ∀ v ∈ variantList, pyLower hh ≠ pyLower v := by
  induction variantList with
  | nil => simp [resolveField]
  | cons v rest ih =>
    unfold resolveField
    by_cases hc : headers.contains v = true
    · have hv : v ∈ headers := List.mem_of_elem_eq_true hc
      simp only [hc, if_true]
      constructor
      · intro h
        exact absurd h (by simp)
      · intro h
        exact absurd rfl (h v hv v (List.mem_cons_self v rest))
    · simp only [hc, if_false, Bool.false_eq_true]
      cases hf : headers.find? (fun ac => pyLower ac = pyLower v) with
      | some ac =>
        have hac : ac ∈ headers := List.mem_of_find?_eq_some hf
        have hlow : pyLower ac = pyLower v := by
          have := List.find?_some hf
          simpa using this
        constructor
        · intro h
          exact absurd h (by simp)
        · intro h
          exact absurd hlow (h ac hac v (List.mem_cons_self v rest))
      | none =>
        rw [ih]
        constructor
        · intro h hh hhh v' hv'
          rcases List.mem_cons.mp hv' with rfl | hv'
          · have := List.find?_eq_none.mp hf hh hhh
            simpa using this
          · exact h hh hhh v' hv'
        · intro h hh hhh v' hv'
          exact h hh hhh v' (List.mem_cons_of_mem v hv')

/-- C5: when no header of the file matches any `Delivery_Time` synonym
(even case-insensitively), `load` halts with the no-usable-delivery-time
error before producing any derived records, summaries or KPIs. -/
theorem load_fails_without_delivery_time (headers : List String)
    (rows : List WorkRow)
    (h : ∀ hh ∈ headers, ∀ v ∈ deliveryTimeVariants, pyLower hh ≠ pyLower v) :
    load headers rows = .error .noUsableDeliveryTimeColumn := by
  unfold load
  rw [(resolveField_none_iff _ _).mpr h]

/-- C5 witness: a file with headers `["Order_ID", "Distance"]` fails to
load. -/
theorem load_fails_without_delivery_time_witness :
    load ["Order_ID", "Distance"] [c7row] = .error .noUsableDeliveryTimeColumn :=
  load_fails_without_delivery_time ["Order_ID", "Distance"] [c7row] (by decide)

/-- C10: derivation fails (with the empty-after-cleaning `DataError`) exactly
when the clean set is empty, and on a one-record clean set — where the sample
standard deviation and hence the threshold are undefined — it succeeds and
marks no record late. -/
theorem derive_error_only_when_empty (rows : List CleanRow) :
    ((∃ e, derive rows = .error e) ↔ rows = []) ∧
    (∀ out, derive rows = .ok out → rows.length = 1 → ∀ d ∈ out, d.late = false) := by
  constructor
  · cases rows with
    | nil => simp [derive]
    | cons a l => simp [derive]
  · intro out hout hlen d hd
    cases rows with
    | nil => simp [derive] at hout
    | cons a l =>
      have hl : l = [] := by simpa using hlen
      subst hl
      simp only [derive, List.isEmpty_cons, if_false, Bool.false_eq_true] at hout
      cases hout
      simp only [List.map_cons, List.map_nil, List.mem_singleton] at hd
      subst hd
      rfl

/-- C10 witness: the singleton clean set `[c10row]` derives successfully and
its only record is not late. -/
theorem derive_error_only_when_empty_witness :
    derive [c10row] = .ok [deriveRow [c10row.deliveryTime] c10row] ∧
    (deriveRow [c10row.deliveryTime] c10row).late = false :=
  ⟨rfl, (derive_error_only_when_empty [c10row]).2
    [deriveRow [c10row.deliveryTime] c10row] rfl rfl
    (deriveRow [c10row.deliveryTime] c10row) (List.mem_singleton.mpr rfl)⟩

/-- C2 counterexample: a record with missing `Agent_Age` is bucketed as
`"<25"` (because `fillna(-1)` drops it into the lowest bin), not as the
sentinel `"Unknown"`, and an age outside the top bin edge `200` becomes
`"Unknown"` rather than `"40+"` — both refuting the claimed bucketing. -/
theorem ageGroup_missing_not_unknown :
    derive [c2row] = .ok [deriveRow [7] c2row] ∧
    (deriveRow [7] c2row).ageGroup = "<25" ∧
    (deriveRow [7] c2row).ageGroup ≠ "Unknown" ∧
    ageGroup (some 201) = "Unknown" :=
  ⟨rfl, by decide, by decide, by decide⟩

/-- C2 (amended): the three named buckets are closed-on-right intervals with
outer edges `-1` and `200` (`[-1,24] → "<25"`, `(24,40] → "25-40"`,
`(40,200] → "40+"`), a missing age is filled with `-1` and therefore lands in
`"<25"` rather than a sentinel bucket, and `"Unknown"` is produced exactly
for ages outside `[-1, 200]`.  In particular 24 gives `"<25"`, 25 and 40 give
`"25-40"`, 41 gives `"40+"`. -/
theorem ageGroup_buckets (a : ℚ) :
    ageGroup none = "<25" ∧
    (-1 ≤ a → a ≤ 24 → ageGroup (some a) = "<25") ∧
    (24 < a → a ≤ 40 → ageGroup (some a) = "25-40") ∧
    (40 < a → a ≤ 200 → ageGroup (some a) = "40+") ∧
    ((a < -1 ∨ 200 < a) → ageGroup (some a) = "Unknown") := by
  refine ⟨by decide, ?_, ?_, ?_, ?_⟩
  · intro h1 h2
    show (if -1 ≤ a ∧ a ≤ 24 then "<25" else _) = "<25"
    rw [if_pos ⟨h1, h2⟩]
  · intro h1 h2
    show (if -1 ≤ a ∧ a ≤ 24 then _ else if 24 < a ∧ a ≤ 40 then "25-40" else _) = "25-40"
    rw [if_neg (by rintro ⟨-, h⟩; linarith), if_pos ⟨h1, h2⟩]
  · intro h1 h2
    show (if -1 ≤ a ∧ a ≤ 24 then _ else if 24 < a ∧ a ≤ 40 then _
      else if 40 < a ∧ a ≤ 200 then "40+" else _) = "40+"
    rw [if_neg (by rintro ⟨-, h⟩; linarith), if_neg (by rintro ⟨-, h⟩; linarith),
      if_pos ⟨h1, h2⟩]
  · intro h
    show (if -1 ≤ a ∧ a ≤ 24 then _ else if 24 < a ∧ a ≤ 40 then _
      else if 40 < a ∧ a ≤ 200 then _ else "Unknown") = "Unknown"
    rcases h with h | h
    · rw [if_neg (by rintro ⟨h1, -⟩; linarith), if_neg (by rintro ⟨h1, -⟩; linarith),
        if_neg (by rintro ⟨h1, -⟩; linarith)]
    · rw [if_neg (by rintro ⟨-, h2⟩; linarith), if_neg (by rintro ⟨-, h2⟩; linarith),
        if_neg (by rintro ⟨-, h2⟩; linarith)]

/-- C2 witness: the bucket boundaries evaluated at 24, 25, 40, 41 and at a
missing age. -/
theorem ageGroup_buckets_witness :
    ageGroup (some 24) = "<25" ∧ ageGroup (some 25) = "25-40" ∧
    ageGroup (some 40) = "25-40" ∧ ageGroup (some 41) = "40+" ∧
    ageGroup none = "<25" :=
  ⟨(ageGroup_buckets 24).2.1 (by decide) (by decide),
   (ageGroup_buckets 25).2.2.1 (by decide) (by decide),
   (ageGroup_buckets 40).2.2.1 (by decide) (by decide),
   (ageGroup_buckets 41).2.2.2.1 (by decide) (by decide),
   (ageGroup_buckets 0).1⟩

theorem dropWhile_head_false {α : Type} (p : α → Bool) (l : List α) (a : α)
    (h : (l.dropWhile p).head? = some a) : p a = false := by
  induction l with
  | nil => simp [List.dropWhile] at h
  | cons x xs ih =>
    rw [List.dropWhile_cons] at h
    by_cases hx : p x = true
    · exact ih (by simpa [hx] using h)
    · simp only [hx, if_false, Bool.false_eq_true, List.head?_cons, Option.some_inj] at h
      subst h
      simpa using hx

theorem dropWhile_dropWhile {α : Type} (p : α → Bool) (l : List α) :
    (l.dropWhile p).dropWhile p = l.dropWhile p := by
  cases h : l.dropWhile p with
  | nil => rfl
  | cons x xs =>
    have hx : p x = false := dropWhile_head_false p l x (by rw [h]; rfl)
    simp [List.dropWhile_cons, hx]

theorem stripChars_idem (p : Char → Bool) (cs : List Char) :
    stripChars p (stripChars p cs) = stripChars p cs := by
  unfold stripChars
  set f := cs.dropWhile p with hf
  set b := (f.reverse.dropWhile p).reverse with hb
  have h1 : b.dropWhile p = b := by
    cases hbb : b with
    | nil => rfl
    | cons x xs =>
      have hpre : b <+: f := by
        have hsuf : b.reverse <:+ f.reverse := by
          rw [hb, List.reverse_reverse]
          exact List.dropWhile_suffix p
        exact List.reverse_suffix.mp hsuf
      obtain ⟨t, ht⟩ := hpre
      have hx : p x = false := by
        apply dropWhile_head_false p cs
        show (cs.dropWhile p).head? = some x
        rw [← hf, ← ht, hbb]
        rfl
      simp [hbb, List.dropWhile_cons, hx]
  have h2 : b.reverse.dropWhile p = b.reverse := by
    rw [hb, List.reverse_reverse]
    exact dropWhile_dropWhile p f.reverse
  rw [h1, h2, List.reverse_reverse]

theorem pyStrip_idem (s : String) : pyStrip (pyStrip s) = pyStrip s := by
  unfold pyStrip
  exact congrArg String.mk (stripChars_idem isSpaceChar s.data)

theorem cleanCell_some (x : Option String) (t : String) (h : cleanCell x = some t) :
    pyStrip t = t ∧ t ≠ "" ∧ t ≠ "nan" ∧ t ≠ "None" := by
  cases x with
  | none => simp [cleanCell] at h
  | some s =>
    simp only [cleanCell] at h
    by_cases hc : (pyStrip s = "" || pyStrip s = "nan" || pyStrip s = "None") = true
    · rw [if_pos hc] at h
      exact absurd h (by simp)
    · rw [if_neg hc] at h
      simp only [Bool.or_eq_true, decide_eq_true_eq, not_or] at hc
      obtain ⟨⟨h1, h2⟩, h3⟩ := hc
      cases h
      exact ⟨pyStrip_idem s, h1, h2, h3⟩

theorem toCleanRow_some (r : WorkRow) (c : CleanRow) (h : toCleanRow r = some c) :
    c.weather = r.weather ∧ c.traffic = r.traffic ∧ c.vehicle = r.vehicle ∧
    c.area = r.area ∧ c.category = r.category := by
  unfold toCleanRow at h
  cases hd : r.deliveryTime with
  | none => rw [hd] at h; exact absurd h (by simp)
  | some dt =>
    rw [hd] at h
    cases h
    exact ⟨rfl, rfl, rfl, rfl, rfl⟩

/-- C6 counterexample: normalization maps an empty weather cell to missing
(`NaN`), not to `"Unknown"`, so a clean record can have a missing
categorical value; and a lower-case value stays lower-case (no
title-casing). -/
theorem categoricals_not_unknown_defaulted :
    (ingest [c6rowEmpty]).map (·.weather) = [none] ∧
    (ingest [c6rowLower]).map (·.weather) = [some "sunny"] :=
  ⟨by decide, by decide⟩

/-- C6 (amended): for the five categorical fields, normalization strips each
cell and replaces the exact tokens `""`, `"nan"`, `"None"` (and missing
cells) with missing — not with `"Unknown"` — and does not title-case; every
present categorical value in the clean set is strip-fixed and is none of
those tokens, while missing categorical values survive into clean records. -/
theorem ingest_categoricals_normalized (rows : List WorkRow) (r : CleanRow)
    (hr : r ∈ ingest rows) :
    (∀ t, r.weather = some t → pyStrip t = t ∧ t ≠ "" ∧ t ≠ "nan" ∧ t ≠ "None") ∧
    (∀ t, r.traffic = some t → pyStrip t = t ∧ t ≠ "" ∧ t ≠ "nan" ∧ t ≠ "None") ∧
    (∀ t, r.vehicle = some t → pyStrip t = t ∧ t ≠ "" ∧ t ≠ "nan" ∧ t ≠ "None") ∧
    (∀ t, r.area = some t → pyStrip t = t ∧ t ≠ "" ∧ t ≠ "nan" ∧ t ≠ "None") ∧
    (∀ t, r.category = some t → pyStrip t = t ∧ t ≠ "" ∧ t ≠ "nan" ∧ t ≠ "None") := by
  obtain ⟨w, hw, hcw⟩ := List.mem_filterMap.mp hr
  obtain ⟨e1, e2, e3, e4, e5⟩ := toCleanRow_some (normalizeRow w) r hcw
  refine ⟨fun t ht => ?_, fun t ht => ?_, fun t ht => ?_, fun t ht => ?_,
    fun t ht => ?_⟩
  · exact cleanCell_some w.weather t (by rw [← ht, e1]; rfl)
  · exact cleanCell_some w.traffic t (by rw [← ht, e2]; rfl)
  · exact cleanCell_some w.vehicle t (by rw [← ht, e3]; rfl)
  · exact cleanCell_some w.area t (by rw [← ht, e4]; rfl)
  · exact cleanCell_some w.category t (by rw [← ht, e5]; rfl)

/-- C6 witness: the clean record of `c6rowLower` carries the stripped,
non-sentinel weather value `"sunny"`. -/
theorem ingest_categoricals_normalized_witness :
    pyStrip "sunny" = "sunny" ∧ "sunny" ≠ "" ∧ "sunny" ≠ "nan" ∧ "sunny" ≠ "None" :=
  (ingest_categoricals_normalized [c6rowLower] c6cleanLower (by decide)).1
    "sunny" (by decide)

theorem toCleanRow_eq_none (r : WorkRow) :
    toCleanRow r = none ↔ r.deliveryTime = none := by
  unfold toCleanRow
  cases r.deliveryTime <;> simp

/-- C7 counterexample: two identical raw rows both survive ingestion — the
pipeline never removes exact-duplicate rows, so the clean set can contain
two rows equal on all columns. -/
theorem duplicates_survive_ingestion :
    ingest [c7row, c7row] = [c7clean, c7clean] ∧
    (ingest [c7row, c7row]).length = 2 :=
  ⟨by decide, by decide⟩

/-- C7 (amended): ingestion performs no duplicate removal; dropping rows
whose (normalized, coerced) `Delivery_Time` is missing is the only
row-dropping rule — the clean set has exactly one record per raw row with a
present delivery time, and every copy of a duplicated raw row contributes
its own clean record. -/
theorem ingest_drops_only_missing_delivery_time :
    (∀ rows : List WorkRow,
      (ingest rows).length =
        rows.countP (fun r => ((normalizeRow r).deliveryTime).isSome)) ∧
    (∀ (rows : List WorkRow) (w : WorkRow) (c : CleanRow),
      toCleanRow (normalizeRow w) = some c →
      rows.count w ≤ (ingest rows).count c) := by
  constructor
  · intro rows
    induction rows with
    | nil => rfl
    | cons a l ih =>
      unfold ingest at ih ⊢
      rw [List.filterMap_cons, List.countP_cons]
      cases h : toCleanRow (normalizeRow a) with
      | none =>
        have hdt : (normalizeRow a).deliveryTime = none :=
          (toCleanRow_eq_none (normalizeRow a)).mp h
        simp [ih, hdt]
      | some c =>
        have hdt : ((normalizeRow a).deliveryTime).isSome = true := by
          cases hd : (normalizeRow a).deliveryTime with
          | none => rw [(toCleanRow_eq_none (normalizeRow a)).mpr hd] at h; cases h
          | some dt => rfl
        simp [ih, hdt]
  · intro rows w c hc
    induction rows with
    | nil => simp
    | cons a l ih =>
      unfold ingest at ih ⊢
      rw [List.filterMap_cons, List.count_cons]
      by_cases haw : a = w
      · subst haw
        rw [hc, List.count_cons]
        simp only [beq_self_eq_true, if_true]
        omega
      · have : (a == w) = false := by simp [haw]
        rw [this]
        simp only [if_false, Bool.false_eq_true, Nat.add_zero]
        cases h : toCleanRow (normalizeRow a) with
        | none => exact ih
        | some c' =>
          rw [List.count_cons]
          split <;> omega

/-- C7 witness: the length rule at a table with one present and one missing
delivery time, and the duplicate-preservation rule at the duplicated row. -/
theorem ingest_drops_only_missing_delivery_time_witness :
    ((ingest [c7row, c7rowNoDt]).length =
      [c7row, c7rowNoDt].countP (fun r => ((normalizeRow r).deliveryTime).isSome)) ∧
    ([c7row, c7row].count c7row ≤ (ingest [c7row, c7row]).count c7clean) :=
  ⟨ingest_drops_only_missing_delivery_time.1 [c7row, c7rowNoDt],
   ingest_drops_only_missing_delivery_time.2 [c7row, c7row] c7row c7clean (by decide)⟩

theorem sampleVar_nonneg (xs : List ℚ) (h : 2 ≤ xs.length) :
    0 ≤ sampleVar xs := by
  unfold sampleVar
  apply div_nonneg
  · apply List.sum_nonneg
    intro x hx
    obtain ⟨y, -, rfl⟩ := List.mem_map.mp hx
    positivity
  · have h2 : (2 : ℚ) ≤ (xs.length : ℚ) := by exact_mod_cast h
    linarith

theorem lateFlag_iff_real (xs : List ℚ) (d : ℚ) (h : 2 ≤ xs.length) :
    lateFlag xs d = true ↔
      ((listMean xs : ℝ) + Real.sqrt ((sampleVar xs : ℚ) : ℝ) < (d : ℝ)) := by
  have hlen : ¬ xs.length ≤ 1 := by omega
  have hv : (0 : ℝ) ≤ ((sampleVar xs : ℚ) : ℝ) := by
    exact_mod_cast sampleVar_nonneg xs h
  rw [lateFlag, if_neg hlen, decide_eq_true_eq]
  constructor
  · rintro ⟨hm, hvar⟩
    have hm' : ((listMean xs : ℚ) : ℝ) < ((d : ℚ) : ℝ) := by exact_mod_cast hm
    have hpos : (0 : ℝ) < ((d : ℚ) : ℝ) - ((listMean xs : ℚ) : ℝ) := by linarith
    have hvar' : ((sampleVar xs : ℚ) : ℝ) <
        (((d : ℚ) : ℝ) - ((listMean xs : ℚ) : ℝ)) ^ 2 := by
      have : ((sampleVar xs : ℚ) : ℝ) < (((d - listMean xs : ℚ)) : ℝ) ^ 2 := by
        exact_mod_cast hvar
      convert this using 2
      push_cast
      ring
    have := (Real.sqrt_lt' hpos).mpr hvar'
    linarith
  · intro hlt
    have hs : (0 : ℝ) ≤ Real.sqrt ((sampleVar xs : ℚ) : ℝ) := Real.sqrt_nonneg _
    have hm' : ((listMean xs : ℚ) : ℝ) < ((d : ℚ) : ℝ) := by linarith
    have hm : listMean xs < d := by exact_mod_cast hm'
    have hpos : (0 : ℝ) < ((d : ℚ) : ℝ) - ((listMean xs : ℚ) : ℝ) := by linarith
    have hsq : Real.sqrt ((sampleVar xs : ℚ) : ℝ) <
        ((d : ℚ) : ℝ) - ((listMean xs : ℚ) : ℝ) := by linarith
    have hvar' := (Real.sqrt_lt' hpos).mp hsq
    refine ⟨hm, ?_⟩
    have : ((sampleVar xs : ℚ) : ℝ) < (((d - listMean xs : ℚ)) : ℝ) ^ 2 := by
      convert hvar' using 2
      push_cast
      ring
    exact_mod_cast this

theorem mem_of_mem_applyFilter (rows : List DerivedRow) (sel : FilterSelection)
    (r : DerivedRow) (hr : r ∈ applyFilter rows sel) : r ∈ rows := by
  rw [applyFilter_eq_filter] at hr
  exact List.mem_of_mem_filter hr

/-- C1: the `Late` flag of every record surviving any filter selection is
determined by the whole-dataset threshold `mean + std` (sample standard
deviation over the entire clean set): filtering neither recomputes the
threshold nor changes the flag, and for each remaining record `r`,
`r.late` holds iff `r.deliveryTime` exceeds the mean of the full clean set
plus the square root of its sample variance. -/
theorem late_stable_under_filter (rows : List CleanRow) (out : List DerivedRow)
    (sel : FilterSelection) (hout : derive rows = .ok out) (hn : 2 ≤ rows.length)
    (r : DerivedRow) (hr : r ∈ applyFilter out sel) :
    (r.late = true ↔
      ((listMean (rows.map (·.deliveryTime)) : ℝ) +
        Real.sqrt ((sampleVar (rows.map (·.deliveryTime)) : ℚ) : ℝ) <
        (r.deliveryTime : ℝ))) := by
  have hne : rows.isEmpty = false := by
    cases rows with
    | nil => simp at hn
    | cons a l => rfl
  unfold derive at hout
  rw [hne] at hout
  simp only [Bool.false_eq_true, if_false] at hout
  cases hout
  have hmem : r ∈ rows.map (deriveRow (rows.map (·.deliveryTime))) :=
    mem_of_mem_applyFilter _ sel r hr
  obtain ⟨c, -, rfl⟩ := List.mem_map.mp hmem
  have hlen : 2 ≤ (rows.map (·.deliveryTime)).length := by
    rw [List.length_map]; exact hn
  exact lateFlag_iff_real (rows.map (·.deliveryTime)) c.deliveryTime hlen

/-- C1 witness: the spec's dataset `[10,10,10,10,100]`, filtered down to the
weather-`"B"` subset, still grades its surviving record against the
whole-dataset threshold. -/
theorem late_stable_under_filter_witness :
    (c1r.late = true ↔
      ((listMean (c1rows.map (·.deliveryTime)) : ℝ) +
        Real.sqrt ((sampleVar (c1rows.map (·.deliveryTime)) : ℚ) : ℝ) <
        (c1r.deliveryTime : ℝ))) :=
  late_stable_under_filter c1rows c1out c1sel rfl (by decide) c1r
    (by simp [c1out, c1rows, c1sel, c1r, c1dts, applyFilter, fieldPass,
      deriveRow, c1row, List.filter])

theorem summarize_keys_perm (rows : List DerivedRow)
    (f : DerivedRow → Option String) (asc : Bool) :
    List.Perm ((summarize rows f asc).map Prod.fst) ((rows.filterMap f).dedup) := by
  unfold summarize
  cases asc
  · rw [if_neg Bool.false_ne_true]
    refine ((List.perm_insertionSort byMeanDesc _).map Prod.fst).trans ?_
    rw [List.map_map]
    have h : (Prod.fst ∘ fun k => (k, groupMean rows f k)) = id := rfl
    rw [h, List.map_id]
    exact List.perm_insertionSort _ _
  · rw [if_pos rfl]
    refine ((List.perm_insertionSort byMeanAsc _).map Prod.fst).trans ?_
    rw [List.map_map]
    have h : (Prod.fst ∘ fun k => (k, groupMean rows f k)) = id := rfl
    rw [h, List.map_id]
    exact List.perm_insertionSort _ _

theorem summarize_mean_of_mem (rows : List DerivedRow)
    (f : DerivedRow → Option String) (asc : Bool) (p : String × ℚ)
    (hp : p ∈ summarize rows f asc) : p.2 = groupMean rows f p.1 := by
  unfold summarize at hp
  cases asc
  · rw [if_neg Bool.false_ne_true, List.mem_insertionSort] at hp
    obtain ⟨k, -, rfl⟩ := List.mem_map.mp hp
    rfl
  · rw [if_pos rfl, List.mem_insertionSort] at hp
    obtain ⟨k, -, rfl⟩ := List.mem_map.mp hp
    rfl

theorem summarize_sorted_desc (rows : List DerivedRow)
    (f : DerivedRow → Option String) :
    List.Sorted byMeanDesc (summarize rows f false) := by
  unfold summarize
  rw [if_neg Bool.false_ne_true]
  exact List.sorted_insertionSort byMeanDesc _

theorem summarize_sorted_asc (rows : List DerivedRow)
    (f : DerivedRow → Option String) :
    List.Sorted byMeanAsc (summarize rows f true) := by
  unfold summarize
  rw [if_pos rfl]
  exact List.sorted_insertionSort byMeanAsc _

/-- C9 counterexample: on the same two-record table, the weather summary
orders its rows by mean descending while the vehicle summary orders the same
key/mean data ascending (`sort_values` at line 204 omits
`ascending=False`), so no single ordering rule is applied consistently
across the grouping fields. -/
theorem summary_ordering_inconsistent :
    weatherSummary [c9a, c9b] = [("B", 2), ("A", 1)] ∧
    vehicleSummary [c9a, c9b] = [("A", 1), ("B", 2)] ∧
    (weatherSummary [c9a, c9b]).map Prod.fst ≠
      (vehicleSummary [c9a, c9b]).map Prod.fst := by
  have hkw : groupKeys [c9a, c9b] (·.weather) = ["A", "B"] := by decide
  have hkv : groupKeys [c9a, c9b] (·.vehicle) = ["A", "B"] := by decide
  have hfAw : [c9a, c9b].filter (fun r => r.weather = some "A") = [c9a] := by decide
  have hfBw : [c9a, c9b].filter (fun r => r.weather = some "B") = [c9b] := by decide
  have hfAv : [c9a, c9b].filter (fun r => r.vehicle = some "A") = [c9a] := by decide
  have hfBv : [c9a, c9b].filter (fun r => r.vehicle = some "B") = [c9b] := by decide
  have hmAw : groupMean [c9a, c9b] (·.weather) "A" = 1 := by
    unfold groupMean
    rw [hfAw]
    unfold listMean
    norm_num [c9a]
  have hmBw : groupMean [c9a, c9b] (·.weather) "B" = 2 := by
    unfold groupMean
    rw [hfBw]
    unfold listMean
    norm_num [c9b]
  have hmAv : groupMean [c9a, c9b] (·.vehicle) "A" = 1 := by
    unfold groupMean
    rw [hfAv]
    unfold listMean
    norm_num [c9a]
  have hmBv : groupMean [c9a, c9b] (·.vehicle) "B" = 2 := by
    unfold groupMean
    rw [hfBv]
    unfold listMean
    norm_num [c9b]
  have hw : weatherSummary [c9a, c9b] = [("B", 2), ("A", 1)] := by
    rw [weatherSummary, summarize, if_neg Bool.false_ne_true, hkw]
    simp only [List.map_cons, List.map_nil]
    rw [hmAw, hmBw]
    decide
  have hv : vehicleSummary [c9a, c9b] = [("A", 1), ("B", 2)] := by
    rw [vehicleSummary, summarize, if_pos rfl, hkv]
    simp only [List.map_cons, List.map_nil]
    rw [hmAv, hmBv]
    decide
  refine ⟨hw, hv, ?_⟩
  rw [hw, hv]
  decide

/-- C9 (amended): each summary emits exactly one row per distinct
non-missing value of its grouping field present in the filtered input, the
row carrying the arithmetic mean of `Delivery_Time` for that group (no
count column exists, and records with a missing grouping value belong to no
group); the output is ordered by mean — descending for the weather summary
but ascending for the vehicle summary, so the ordering direction is not
uniform across grouping fields. -/
theorem summaries_per_distinct_key (rows : List DerivedRow) :
    (∀ k, k ∈ (weatherSummary rows).map Prod.fst ↔ some k ∈ rows.map (·.weather)) ∧
    ((weatherSummary rows).map Prod.fst).Nodup ∧
    (∀ p ∈ weatherSummary rows, p.2 = groupMean rows (·.weather) p.1) ∧
    List.Sorted byMeanDesc (weatherSummary rows) ∧
    (∀ k, k ∈ (vehicleSummary rows).map Prod.fst ↔ some k ∈ rows.map (·.vehicle)) ∧
    ((vehicleSummary rows).map Prod.fst).Nodup ∧
    (∀ p ∈ vehicleSummary rows, p.2 = groupMean rows (·.vehicle) p.1) ∧
    List.Sorted byMeanAsc (vehicleSummary rows) := by
  refine ⟨?_, ?_, ?_, summarize_sorted_desc rows _, ?_, ?_, ?_,
    summarize_sorted_asc rows _⟩
  · intro k
    unfold weatherSummary
    rw [(summarize_keys_perm rows (·.weather) false).mem_iff, List.mem_dedup,
      List.mem_filterMap, List.mem_map]
  · exact ((summarize_keys_perm rows (·.weather) false).nodup_iff).mpr
      (List.nodup_dedup _)
  · exact fun p hp => summarize_mean_of_mem rows (·.weather) false p hp
  · intro k
    unfold vehicleSummary
    rw [(summarize_keys_perm rows (·.vehicle) true).mem_iff, List.mem_dedup,
      List.mem_filterMap, List.mem_map]
  · exact ((summarize_keys_perm rows (·.vehicle) true).nodup_iff).mpr
      (List.nodup_dedup _)
  · exact fun p hp => summarize_mean_of_mem rows (·.vehicle) true p hp

/-- C9 witness: a concrete summary row of `[c9a, c9b]` carries its group's
mean, and key `"A"` appears in the weather summary because it is present. -/
theorem summaries_per_distinct_key_witness :
    c9p.2 = groupMean [c9a, c9b] (·.weather) c9p.1 ∧
    ("A" ∈ (weatherSummary [c9a, c9b]).map Prod.fst ↔
      some "A" ∈ [c9a, c9b].map (·.weather)) :=
  ⟨(summaries_per_distinct_key [c9a, c9b]).2.2.1 c9p
    (by
      show c9p ∈ weatherSummary [c9a, c9b]
      unfold weatherSummary summarize c9p
      rw [if_neg Bool.false_ne_true, List.mem_insertionSort]
      exact List.mem_map.mpr ⟨"A", by decide, rfl⟩),
   (summaries_per_distinct_key [c9a, c9b]).1 "A"⟩

end LastMile
